import Mathlib

/-!
Verification development for the Showdown scrum-poker session coordination
layer. The Go source is shallowly embedded: the shared `gameState` becomes an
explicit `GameState` record threaded through pure step functions, SSH session
handles become opaque numeric ids, the Go map of players becomes an
association list (keys are kept unique by the registration guard), and the
`float64` vote arithmetic of `calculateStatistics` is embedded over `ℚ`
(exact decimal arithmetic). Bubble Tea message dispatch is embedded as a
closed inductive message type with one case per handled message.
-/

namespace Showdown

/-- Embedding of Go struct `playerState` (master.go / player_test.go):
selected points, SSH session handle (opaque id), and selection flag. -/
structure PlayerSt where
  points : String
  selected : Bool
  session : Nat
deriving DecidableEq, Repr

/-- Embedding of Go struct `gameState`: the players map (as an association
list from name to `PlayerSt`), the reveal flag, and the Scrum Master
connection reference (`none` when no master is connected). The mutex is
dropped: operations are embedded as whole atomic steps, which is exactly
the serialization the write lock provides. -/
structure GameState where
  players : List (String × PlayerSt)
  revealed : Bool
  masterConn : Option Nat
deriving DecidableEq, Repr

/-- Embedding of `clearPlayerState` (main.go): set `revealed` to false and
reset every player's points and selection, keeping the entries themselves. -/
def clearPlayerState (s : GameState) : GameState :=
  { s with
    revealed := false
    players := s.players.map fun e => (e.1, { e.2 with points := "", selected := false }) }

/-- Embedding of `quitPlayers` (main.go): close every player session (an
external effect, invisible in the registry) and replace the players map by a
fresh empty one. The reveal flag and master connection are not touched. -/
def quitPlayers (s : GameState) : GameState :=
  { s with players := [] }

/-- Embedding of the player quit branch of `playerView.Update` (player.go,
keys q/esc/ctrl+c): `delete(state.players, p.name)`. -/
def playerQuit (s : GameState) (name : String) : GameState :=
  { s with players := s.players.filter fun e => e.1 != name }

/-- Embedding of the enter branch of `playerView.Update` (player.go): the
vote is applied only when the reveal flag is false and the player exists in
the map; it then stores the selected value and sets the selected flag. -/
def playerVote (s : GameState) (name value : String) : GameState :=
  if s.revealed then s
  else
    match s.players.lookup name with
    | some _ =>
        { s with
          players := s.players.map fun e =>
            if e.1 = name then (e.1, { e.2 with points := value, selected := true }) else e }
    | none => s

/-- Embedding of the registration insert in `initPlayerView` (player.go
lines 253-257): under the write lock, `state.players[playerName] =
&playerState{session: session}` — an unconditional map assignment of a
fresh entry with zero-valued points ("") and selected (false); nothing
re-checks for a duplicate here. The association list keeps the most recent
insert first and `lookup` takes the first match, so a repeated insert for
one key has the same lookup observables as the Go map assignment's
overwrite. -/
def initPlayerView (name : String) (session : Nat) (s : GameState) : GameState :=
  { s with players := (name, ⟨"", false, session⟩) :: s.players }

/-- Result of a name-entry attempt in `nameInputView.Update` (player.go). -/
inductive RegisterResult
  | ok
  | emptyName
  | nameTaken
deriving DecidableEq, Repr

/-- Embedding of one name-entry attempt of `nameInputView.Update`
(player.go) run uncontended, with no other attempt interleaved between its
two critical sections: reject the empty name, reject a name found by the
read-locked duplicate check, otherwise insert through `initPlayerView`.
The check and the insert are in reality two separate lock scopes; `regStep`
below models them separately, and this function is their back-to-back
composition. -/
def nameInputEnter (s : GameState) (name : String) (session : Nat) :
    GameState × RegisterResult :=
  if name = "" then (s, .emptyName)
  else if (s.players.lookup name).isSome then (s, .nameTaken)
  else (initPlayerView name session s, .ok)

/-- How far a registration attempt has progressed: not yet run, past the
read-locked duplicate check (the read lock already released, the insert not
yet performed), or finished with a result. -/
inductive AttemptPhase
  | start
  | checked
  | done (r : RegisterResult)
deriving DecidableEq, Repr

/-- One in-flight registration attempt: the candidate name, the session
handle, and its phase. -/
structure RegAttempt where
  name : String
  session : Nat
  phase : AttemptPhase
deriving DecidableEq, Repr

/-- One critical section of a registration attempt, as the code delimits
them. From `start`: the empty-name test, then the duplicate check of
`nameInputView.Update` (player.go lines 301-303) under `state.mu.RLock` —
on a free name the attempt moves to `checked` and the read lock is
released. From `checked`: the insert of `initPlayerView` (player.go lines
253-257) under a separate `state.mu.Lock`, which is unconditional — no
re-check — and reports success. Interleavings of these sections across
attempts are exactly what the two distinct lock scopes permit. -/
def regStep (s : GameState) (a : RegAttempt) : GameState × RegAttempt :=
  match a.phase with
  | .start =>
      if a.name = "" then (s, { a with phase := .done .emptyName })
      else if (s.players.lookup a.name).isSome then (s, { a with phase := .done .nameTaken })
      else (s, { a with phase := .checked })
  | .checked => (initPlayerView a.name a.session s, { a with phase := .done .ok })
  | .done _ => (s, a)

/-- Run a schedule of critical sections over a pool of attempts: each
schedule entry names the attempt whose next critical section executes. -/
def regRun : GameState → List RegAttempt → List Nat → GameState × List RegAttempt
  | s, attempts, [] => (s, attempts)
  | s, attempts, i :: rest =>
      match attempts[i]? with
      | some a =>
          let r := regStep s a
          regRun r.1 (attempts.set i r.2) rest
      | none => regRun s attempts rest

/-- Outcome of `pokerHandler` (player_test.go, the served revision) for one
connection. -/
inductive ConnOutcome
  | masterGranted
  | masterDenied
  | playerFlow
deriving DecidableEq, Repr

/-- Embedding of `pokerHandler` (player_test.go lines 583-610): an authorized
(facilitator-credentialed) connection takes the master slot when it is
empty; when the slot is held the connection is denied and closed with no
state change; an unauthorized connection goes to the player name flow. -/
def pokerHandler (s : GameState) (conn : Nat) (authorized : Bool) :
    GameState × ConnOutcome :=
  if authorized then
    match s.masterConn with
    | none => ({ s with masterConn := some conn }, .masterGranted)
    | some _ => (s, .masterDenied)
  else (s, .playerFlow)

/-- Embedding of `sessionCloseMiddleware` (player_test.go lines 674-692):
after a session ends, the master slot is cleared only when that session is
the one currently holding it. -/
def sessionCloseCleanup (s : GameState) (conn : Nat) : GameState :=
  if s.masterConn = some conn then { s with masterConn := none } else s

/-- The three timer keys the master key map binds (main.go `keysMaster`:
One = "1", Three = "3", Six = "6"). -/
inductive TimerKey
  | one
  | three
  | six
deriving DecidableEq, Repr

/-- Embedding of `timerDurations` (main.go): seconds per timer key. -/
def timerDurations : TimerKey → Nat
  | .one => 15
  | .three => 30
  | .six => 60

/-- Messages handled by `masterView.Update` (main.go), one constructor per
dispatch case that touches game state. -/
inductive MasterMsg
  | quitKey
  | reveal
  | clear
  | disconnect
  | timerKey (k : TimerKey)
  | tick
  | timerExpired
deriving DecidableEq, Repr

/-- Commands returned by `masterView.Update` to the Bubble Tea runtime. A
`startTimer d` command sleeps `d` seconds in its own goroutine and then
delivers a `timerExpiredMsg`; nothing ever cancels such a goroutine. -/
inductive Cmd
  | tickEvery
  | startTimer (seconds : Nat)
  | quitProgram
deriving DecidableEq, Repr

/-- Embedding of `masterView.Update` (main.go lines 214-270): the game-state
effect and issued commands of each message. `quitKey` runs `quitPlayers` and
clears the master reference; `reveal` and `timerExpired` set the reveal
flag; `clear` runs `clearPlayerState`; `disconnect` runs `quitPlayers`; a
timer key runs `clearPlayerState` and starts a fresh countdown. -/
def masterUpdate (s : GameState) (msg : MasterMsg) : GameState × List Cmd :=
  match msg with
  | .quitKey => ({ quitPlayers s with masterConn := none }, [.quitProgram])
  | .reveal => ({ s with revealed := true }, [.tickEvery])
  | .clear => (clearPlayerState s, [.tickEvery])
  | .disconnect => (quitPlayers s, [.tickEvery])
  | .timerKey k => (clearPlayerState s, [.tickEvery, .startTimer (timerDurations k)])
  | .tick => (s, [.tickEvery])
  | .timerExpired => ({ s with revealed := true }, [.tickEvery])

/-- System state for the timer semantics: the game state together with the
set of in-flight `startTimer` goroutines, identified by generation ids in
start order. `startTimer` (main.go lines 181-186) only sleeps and then sends
`timerExpiredMsg`; starting a new timer never stops an older goroutine, so a
pending id leaves the list only by firing. -/
structure TimerSys where
  game : GameState
  pending : List Nat
  nextId : Nat
deriving DecidableEq, Repr

/-- An event of the timer semantics: either the master view handles a
message, or the sleep of in-flight timer `id` elapses and its
`timerExpiredMsg` is delivered to `masterView.Update`. -/
inductive TimerEvent
  | key (m : MasterMsg)
  | fire (id : Nat)
deriving DecidableEq, Repr

/-- Count of `startTimer` commands in a command list. -/
def startedTimers (cmds : List Cmd) : Nat :=
  (cmds.filter fun c => match c with | .startTimer _ => true | _ => false).length

/-- One step of the timer semantics. A `key` step applies `masterUpdate` and
records a fresh generation id for each `startTimer` command it issued. A
`fire id` step, for an in-flight timer, delivers `timerExpiredMsg` to
`masterUpdate` — the message carries no identity, so the handler cannot tell
a superseded timer's expiry from the current one's. -/
def timerStep (s : TimerSys) (e : TimerEvent) : TimerSys :=
  match e with
  | .key m =>
      let r := masterUpdate s.game m
      let k := startedTimers r.2
      { game := r.1
        pending := s.pending ++ (List.range k).map (· + s.nextId)
        nextId := s.nextId + k }
  | .fire id =>
      if id ∈ s.pending then
        { game := (masterUpdate s.game .timerExpired).1
          pending := s.pending.erase id
          nextId := s.nextId }
      else s

/-- Run of the timer semantics over a list of events. -/
def timerRun (s : TimerSys) (es : List TimerEvent) : TimerSys :=
  es.foldl timerStep s

/-- Reasons `validatePlayerName` can reject a candidate name. -/
inductive NameError
  | tooShort
  | tooLong
  | invalidChars
  | controlChars
  | reservedName
deriving DecidableEq, Repr

/-- Embedding of the `reservedNames` list (player_test.go line 324). -/
def reservedNames : List String :=
  ["master", "admin", "system", "server", "scrum", "poker"]

/-- Character class of `validNameRegex` (player_test.go line 307): ASCII
letters, digits, space, underscore, hyphen. -/
def validChar (c : Char) : Bool :=
  ('a' ≤ c && c ≤ 'z') || ('A' ≤ c && c ≤ 'Z') || ('0' ≤ c && c ≤ '9') ||
    c == ' ' || c == '_' || c == '-'

/-- Embedding of `unicode.IsControl`: the C0 controls, DEL, and the C1
controls. -/
def isCtrl (c : Char) : Bool :=
  c.toNat < 32 || c.toNat == 127 || (128 ≤ c.toNat && c.toNat ≤ 159)

/-- Whitespace trimmed by `strings.TrimSpace`, on the character list. -/
def trimChars (l : List Char) : List Char :=
  ((l.dropWhile Char.isWhitespace).reverse.dropWhile Char.isWhitespace).reverse

/-- Byte length of the UTF-8 encoding, as Go's `len` on a string. -/
def utf8Len (l : List Char) : Nat :=
  (l.map Char.utf8Size).sum

/-- Embedding of `validatePlayerName` (player_test.go lines 340-373): trim
whitespace, check byte length bounds [2, 20], the allowed character class,
control characters, and the case-insensitive reserved-name list. Returns
`none` when the name is valid. (Go lowercases with full Unicode tables; the
embedding lowercases ASCII, which agrees on the allowed character class.) -/
def validatePlayerName (name : String) : Option NameError :=
  let n := trimChars name.data
  if utf8Len n < 2 then some .tooShort
  else if utf8Len n > 20 then some .tooLong
  else if !(n.all validChar) then some .invalidChars
  else if n.any isCtrl then some .controlChars
  else if reservedNames.contains (String.mk (n.map Char.toLower)) then some .reservedName
  else none

/-- Value of a digit list read in base 10. -/
def digitsToNat (ds : List Char) : Nat :=
  ds.foldl (fun n c => 10 * n + (c.toNat - 48)) 0

/-- Decimal core of `strconv.ParseFloat` on an unsigned token: digits with an
optional fractional part, at least one digit overall ("5", "5.", ".5",
"2.75"). Scientific and hexadecimal float notation never appears among vote
tokens and is outside the modelled grammar. The value is exact in `ℚ`. -/
def parseUnsigned (s : List Char) : Option ℚ :=
  let intPart := s.takeWhile Char.isDigit
  let rest := s.dropWhile Char.isDigit
  match rest with
  | [] => if intPart = [] then none else some (digitsToNat intPart)
  | '.' :: frac =>
      if frac.all Char.isDigit && (!intPart.isEmpty || !frac.isEmpty) then
        some ((digitsToNat intPart : ℚ) + (digitsToNat frac : ℚ) / ((10 ^ frac.length : Nat) : ℚ))
      else none
  | _ => none

/-- Embedding of `strconv.ParseFloat` on a vote token: optional sign around
the unsigned decimal grammar. -/
def parseVote (s : String) : Option ℚ :=
  match s.data with
  | [] => none
  | '+' :: rest => parseUnsigned rest
  | '-' :: rest => (parseUnsigned rest).map Neg.neg
  | l => parseUnsigned l

/-- Rounding to the nearest integer with ties to even, as Go's formatting of
an exactly representable value does. -/
def roundHalfEven (x : ℚ) : Int :=
  let f := ⌊x⌋
  let r := x - f
  if r < 1 / 2 then f
  else if 1 / 2 < r then f + 1
  else if f % 2 = 0 then f else f + 1

/-- Embedding of the `%.1f` format verb: the value rounded to one decimal
place, printed with exactly one digit after the point. -/
def fmt1 (q : ℚ) : String :=
  let n := roundHalfEven (q * 10)
  let a := n.natAbs
  let core := toString (a / 10) ++ "." ++ toString (a % 10)
  if n < 0 then "-" ++ core else core

/-- Embedding of `calculateStatistics` (master.go lines 75-112, identical in
player_test.go lines 431-468): one pass builds the distribution map (here a
count function, matching Go map extensionality) and collects the tokens that
parse as numbers; the average is their mean (0 when none parse); the median
sorts them ascending and formats the middle value, or the mean of the two
middle values, with `%.1f`, with "N/A" when none parse. -/
def calculateStatistics (points : List String) :
    ℚ × String × (String → Nat) :=
  let numericPoints := points.filterMap parseVote
  let distribution := points.foldl (fun d p => Function.update d p (d p + 1)) fun _ => 0
  let average : ℚ :=
    if numericPoints.length > 0 then numericPoints.sum / numericPoints.length else 0
  let sorted := numericPoints.insertionSort (· ≤ ·)
  let mid := numericPoints.length / 2
  let median : String :=
    if numericPoints.length > 0 then
      if numericPoints.length % 2 = 0 then
        fmt1 ((sorted.getD (mid - 1) 0 + sorted.getD mid 0) / 2)
      else fmt1 (sorted.getD mid 0)
    else "N/A"
  (average, median, distribution)

/-- Average as claim C6 words it: the arithmetic mean of the tokens that
parse as decimal numbers, 0 if none parse. -/
def specAverage (points : List String) : ℚ :=
  let nums := points.filterMap parseVote
  if nums = [] then 0 else nums.sum / nums.length

/-- Median as claim C6 words it: sort the numeric tokens ascending; for an
odd count take the middle value, for an even count the mean of the two
middle values formatted to one decimal place, and "N/A" when no token is
numeric. -/
def specMedian (points : List String) : String :=
  let nums := (points.filterMap parseVote).insertionSort (· ≤ ·)
  if nums = [] then "N/A"
  else if nums.length % 2 = 1 then fmt1 (nums.getD (nums.length / 2) 0)
  else fmt1 ((nums.getD (nums.length / 2 - 1) 0 + nums.getD (nums.length / 2) 0) / 2)

/-- Distribution as claim C6 words it: the multiset count of each literal
token string. -/
def specDistribution (points : List String) : String → Nat :=
  fun t => points.count t

/-- Looking a name up after mapping a key-preserving, key-indexed function
over the players list applies that function to the found entry. -/
theorem lookup_map_keyed (f : String → PlayerSt → PlayerSt) :
    ∀ (l : List (String × PlayerSt)) (n : String),
      (l.map fun e => (e.1, f e.1 e.2)).lookup n = (l.lookup n).map (f n)
  | [], _ => rfl
  | (k, v) :: tl, n => by
      by_cases h : n = k
      · have hb : (n == k) = true := beq_iff_eq.mpr h
        simp [List.lookup, hb, h]
      · have hb : (n == k) = false := beq_eq_false_iff_ne.mpr h
        simp [List.lookup, hb, lookup_map_keyed f tl n]

/-- The per-entry effect of `playerVote` on the entry of key `k`. -/
def votef (name value : String) (k : String) (q : PlayerSt) : PlayerSt :=
  if k = name then { q with points := value, selected := true } else q

/-- The per-entry update of `playerVote`, rewritten in key-indexed form. -/
theorem vote_map_keyed (name value : String) (l : List (String × PlayerSt)) :
    (l.map fun e =>
        if e.1 = name then (e.1, { e.2 with points := value, selected := true }) else e)
      = l.map fun e => (e.1, votef name value e.1 e.2) := by
  apply List.map_congr_left
  intro e _
  by_cases h : e.1 = name <;> simp [votef, h]

/-- Lookup after `clearPlayerState`'s per-entry reset. -/
theorem lookup_clear (l : List (String × PlayerSt)) (n : String) :
    (l.map fun e => (e.1, { e.2 with points := "", selected := false })).lookup n
      = (l.lookup n).map fun p => { p with points := "", selected := false } :=
  lookup_map_keyed (fun _ p => { p with points := "", selected := false }) l n

/-- Claim C8: running `clear()` yields reveal flag false and every registered
participant's vote empty with has-voted false, while the participant names
and session handles are unchanged and no participant is removed; `clear()`
is idempotent. -/
theorem clear_resets_votes_keeps_players (s : GameState) :
    (clearPlayerState s).revealed = false
    ∧ (clearPlayerState s).players.map Prod.fst = s.players.map Prod.fst
    ∧ (∀ e ∈ (clearPlayerState s).players, e.2.points = "" ∧ e.2.selected = false)
    ∧ (∀ n p, s.players.lookup n = some p →
        (clearPlayerState s).players.lookup n = some ⟨"", false, p.session⟩)
    ∧ (clearPlayerState s).masterConn = s.masterConn
    ∧ clearPlayerState (clearPlayerState s) = clearPlayerState s := by
  refine ⟨rfl, ?_, ?_, ?_, rfl, ?_⟩
  · simp only [clearPlayerState, List.map_map]
    rfl
  · intro e he
    simp only [clearPlayerState, List.mem_map] at he
    obtain ⟨a, _, rfl⟩ := he
    exact ⟨rfl, rfl⟩
  · intro n p h
    have hc := lookup_clear s.players n
    rw [h] at hc
    exact hc
  · simp only [clearPlayerState, List.map_map]
    rfl

/-- Claim C8 witness at a concrete two-player revealed state. -/
theorem clear_resets_votes_keeps_players_witness :
    (clearPlayerState ⟨[("alice", ⟨"5", true, 1⟩), ("bob", ⟨"8", true, 2⟩)], true, some 0⟩).players.lookup "alice"
      = some ⟨"", false, 1⟩ :=
  (clear_resets_votes_keeps_players
      ⟨[("alice", ⟨"5", true, 1⟩), ("bob", ⟨"8", true, 2⟩)], true, some 0⟩).2.2.2.1
    "alice" ⟨"5", true, 1⟩ (by decide)

/-- Claim C10: casting a vote under a name absent from the players map
leaves the whole game state unchanged. -/
theorem vote_unknown_name_noop (s : GameState) (name value : String)
    (h : s.players.lookup name = none) : playerVote s name value = s := by
  unfold playerVote
  by_cases hr : s.revealed
  · simp [hr]
  · simp [hr, h]

/-- Claim C10 witness: voting as the unregistered "mallory" changes
nothing. -/
theorem vote_unknown_name_noop_witness :
    playerVote ⟨[("alice", ⟨"", false, 1⟩)], false, some 0⟩ "mallory" "8"
      = ⟨[("alice", ⟨"", false, 1⟩)], false, some 0⟩ :=
  vote_unknown_name_noop ⟨[("alice", ⟨"", false, 1⟩)], false, some 0⟩ "mallory" "8" (by decide)

/-- Claim C2: casting a vote while the reveal flag is true is a silent
no-op (the state, in particular the participant's stored vote and has-voted
flag, is unchanged and no error exists to be produced); when the reveal flag
is false the vote is recorded for the named participant — value stored,
has-voted set — while every other participant, the reveal flag and the
master reference stay unchanged. -/
theorem vote_after_reveal_ignored :
    (∀ (s : GameState) (name value : String),
        s.revealed = true → playerVote s name value = s)
    ∧ (∀ (s : GameState) (name value : String) (p : PlayerSt),
        s.revealed = false → s.players.lookup name = some p →
          (playerVote s name value).revealed = false
          ∧ (playerVote s name value).masterConn = s.masterConn
          ∧ (playerVote s name value).players.lookup name = some ⟨value, true, p.session⟩
          ∧ ∀ m, m ≠ name →
              (playerVote s name value).players.lookup m = s.players.lookup m) := by
  constructor
  · intro s name value h
    simp [playerVote, h]
  · intro s name value p hr hl
    have hvote : playerVote s name value =
        { s with players := s.players.map fun e => (e.1, votef name value e.1 e.2) } := by
      simp [playerVote, hr, hl, vote_map_keyed]
    refine ⟨by simp [hvote, hr], by simp [hvote], ?_, ?_⟩
    · rw [hvote]
      show (s.players.map fun e => (e.1, votef name value e.1 e.2)).lookup name
        = some ⟨value, true, p.session⟩
      rw [lookup_map_keyed (votef name value), hl]
      simp [votef]
    · intro m hm
      rw [hvote]
      show (s.players.map fun e => (e.1, votef name value e.1 e.2)).lookup m
        = s.players.lookup m
      rw [lookup_map_keyed (votef name value)]
      cases hml : s.players.lookup m with
      | none => rfl
      | some q => simp [votef, hm]

/-- Claim C2 witness: after reveal Alice's vote attempt changes nothing;
before reveal it is recorded. -/
theorem vote_after_reveal_ignored_witness :
    playerVote ⟨[("alice", ⟨"3", true, 1⟩)], true, some 0⟩ "alice" "8"
        = ⟨[("alice", ⟨"3", true, 1⟩)], true, some 0⟩
    ∧ (playerVote ⟨[("alice", ⟨"", false, 1⟩)], false, some 0⟩ "alice" "8").players.lookup "alice"
        = some ⟨"8", true, 1⟩ :=
  ⟨vote_after_reveal_ignored.1 ⟨[("alice", ⟨"3", true, 1⟩)], true, some 0⟩ "alice" "8" rfl,
   (vote_after_reveal_ignored.2 ⟨[("alice", ⟨"", false, 1⟩)], false, some 0⟩ "alice" "8"
      ⟨"", false, 1⟩ rfl (by decide)).2.2.1⟩

/-- Claim C5 evaluated on the code: the duplicate check runs under the read
lock and the insert under a separate write lock with no re-check, so the
two lock scopes of two attempts for the same free name may interleave as
check/check/insert/insert. Concretely, attempts 0 and 1 both submit the
free name "dave": under the interleaved schedule [0, 1, 0, 1] both checks
see the name free before either insert runs, both inserts then execute, and
both attempts finish with success — neither observes a name-already-taken
rejection, refuting "at most one succeeds". The uncontended schedule
[0, 0, 1] shows the intended outcome the race loses: one success, one
rejection. The final registry after the race answers lookups with the
second attempt's entry, the first registrant's handle having been
clobbered by the unconditional assignment. -/
theorem concurrent_registration_both_succeed :
    (regRun ⟨[], false, none⟩
        [⟨"dave", 1, .start⟩, ⟨"dave", 2, .start⟩] [0, 1, 0, 1]).2.map RegAttempt.phase
      = [.done .ok, .done .ok]
    ∧ (regRun ⟨[], false, none⟩
        [⟨"dave", 1, .start⟩, ⟨"dave", 2, .start⟩] [0, 0, 1]).2.map RegAttempt.phase
      = [.done .ok, .done .nameTaken]
    ∧ (regRun ⟨[], false, none⟩
        [⟨"dave", 1, .start⟩, ⟨"dave", 2, .start⟩] [0, 1, 0, 1]).1.players.lookup "dave"
      = some ⟨"", false, 2⟩ := by
  decide

/-- Claim C1: an authorized (facilitator-credentialed) connection is granted
the master slot exactly when the slot is empty; while the slot is held every
further authorized connection is denied with no state change; session close
clears the slot only when the closing session is the one holding it, and
touches nothing else. With the slot an `Option`, at most one facilitator
reference is live at any instant. -/
theorem facilitator_slot_exclusive :
    (∀ (s : GameState) (c : Nat),
        s.masterConn = none →
          pokerHandler s c true = ({ s with masterConn := some c }, .masterGranted))
    ∧ (∀ (s : GameState) (c m : Nat),
        s.masterConn = some m → pokerHandler s c true = (s, .masterDenied))
    ∧ (∀ (s : GameState) (c : Nat),
        s.masterConn = some c →
          (sessionCloseCleanup s c).masterConn = none
          ∧ (sessionCloseCleanup s c).players = s.players
          ∧ (sessionCloseCleanup s c).revealed = s.revealed)
    ∧ (∀ (s : GameState) (c : Nat),
        s.masterConn ≠ some c → sessionCloseCleanup s c = s) := by
  refine ⟨?_, ?_, ?_, ?_⟩
  · intro s c h
    simp [pokerHandler, h]
  · intro s c m h
    simp [pokerHandler, h]
  · intro s c h
    simp [sessionCloseCleanup, h]
  · intro s c h
    simp [sessionCloseCleanup, h]

/-- Claim C1 witness: connection 5 takes the empty slot; connection 6 is
then denied without mutation; closing the holder 5 clears the slot, while
closing the stranger 6 changes nothing. -/
theorem facilitator_slot_exclusive_witness :
    pokerHandler ⟨[], false, none⟩ 5 true = (⟨[], false, some 5⟩, .masterGranted)
    ∧ pokerHandler ⟨[], false, some 5⟩ 6 true = (⟨[], false, some 5⟩, .masterDenied)
    ∧ (sessionCloseCleanup ⟨[], false, some 5⟩ 5).masterConn = none
    ∧ sessionCloseCleanup ⟨[], false, some 5⟩ 6 = ⟨[], false, some 5⟩ :=
  ⟨facilitator_slot_exclusive.1 ⟨[], false, none⟩ 5 rfl,
   facilitator_slot_exclusive.2.1 ⟨[], false, some 5⟩ 6 5 rfl,
   (facilitator_slot_exclusive.2.2.1 ⟨[], false, some 5⟩ 5 rfl).1,
   facilitator_slot_exclusive.2.2.2 ⟨[], false, some 5⟩ 6 (by decide)⟩

/-- Claim C3 evaluated on the code: with no master-side cancellation —
`startTimer` only sleeps and then sends an identity-free `timerExpiredMsg`,
and `masterView.Update` sets the reveal flag on every such message — a
superseded timer's expiry does reveal. Concretely: from the initial state,
timer 0 is started (key "1", 15s), then timer 1 (key "3", 30s) while timer 0
is still pending; when timer 0's sleep elapses first, its delivery sets the
reveal flag, although timer 1 is still pending and the claim says a
superseded timer's expiry must never do so. -/
theorem superseded_timer_still_reveals :
    (timerRun ⟨⟨[], false, some 0⟩, [], 0⟩
        [.key (.timerKey .one), .key (.timerKey .three)]).pending = [0, 1]
    ∧ (timerRun ⟨⟨[], false, some 0⟩, [], 0⟩
        [.key (.timerKey .one), .key (.timerKey .three)]).game.revealed = false
    ∧ (timerRun ⟨⟨[], false, some 0⟩, [], 0⟩
        [.key (.timerKey .one), .key (.timerKey .three), .fire 0]).game.revealed = true
    ∧ (timerRun ⟨⟨[], false, some 0⟩, [], 0⟩
        [.key (.timerKey .one), .key (.timerKey .three), .fire 0]).pending = [1] := by
  decide

/-- Claim C4 as stated is false on the code: the facilitator's disconnect-all
empties the participant map yet leaves the reveal flag true — `quitPlayers`
(main.go lines 190-197) and the Disconnect case (lines 239-245) never touch
`state.revealed`. Concrete input: one revealed state with Alice registered;
after the disconnect command the map is empty and the reveal flag is still
true, so the system is not back in the Voting state. -/
theorem disconnect_leaves_reveal_set :
    (masterUpdate ⟨[("alice", ⟨"5", true, 1⟩)], true, some 0⟩ .disconnect).1.players = []
    ∧ (masterUpdate ⟨[("alice", ⟨"5", true, 1⟩)], true, some 0⟩ .disconnect).1.revealed = true := by
  decide

/-- Claim C4 amended: immediately after the facilitator's clear command or
after starting a new countdown the reveal flag is false; the disconnect-all
command (and the facilitator's quit) empties the participant map but leaves
the reveal flag unchanged; and the reveal flag becomes true, from false,
only through the facilitator's reveal command or a timer expiry — no player
action (vote, registration, quit) and no session close sets it. -/
theorem reveal_false_after_clear_transitions :
    (∀ s : GameState, (masterUpdate s .clear).1.revealed = false)
    ∧ (∀ (s : GameState) (k : TimerKey), (masterUpdate s (.timerKey k)).1.revealed = false)
    ∧ (∀ s : GameState,
        (masterUpdate s .disconnect).1.players = []
        ∧ (masterUpdate s .disconnect).1.revealed = s.revealed)
    ∧ (∀ s : GameState,
        (masterUpdate s .quitKey).1.players = []
        ∧ (masterUpdate s .quitKey).1.revealed = s.revealed)
    ∧ (∀ (s : GameState) (m : MasterMsg),
        s.revealed = false → (masterUpdate s m).1.revealed = true →
          m = .reveal ∨ m = .timerExpired)
    ∧ (∀ (s : GameState) (name value : String),
        (playerVote s name value).revealed = s.revealed)
    ∧ (∀ (s : GameState) (name : String) (sess : Nat),
        (nameInputEnter s name sess).1.revealed = s.revealed)
    ∧ (∀ (s : GameState) (name : String), (playerQuit s name).revealed = s.revealed)
    ∧ (∀ (s : GameState) (c : Nat), (sessionCloseCleanup s c).revealed = s.revealed) := by
  refine ⟨fun s => rfl, fun s k => rfl, fun s => ⟨rfl, rfl⟩, fun s => ⟨rfl, rfl⟩, ?_, ?_, ?_,
    fun s name => rfl, ?_⟩
  · intro s m h0 h1
    cases m with
    | reveal => exact Or.inl rfl
    | timerExpired => exact Or.inr rfl
    | quitKey => rw [show (masterUpdate s .quitKey).1.revealed = s.revealed from rfl] at h1; simp [h0] at h1
    | clear => simp [masterUpdate, clearPlayerState] at h1
    | disconnect => rw [show (masterUpdate s .disconnect).1.revealed = s.revealed from rfl] at h1; simp [h0] at h1
    | timerKey k => simp [masterUpdate, clearPlayerState] at h1
    | tick => rw [show (masterUpdate s .tick).1.revealed = s.revealed from rfl] at h1; simp [h0] at h1
  · intro s name value
    unfold playerVote
    by_cases hr : s.revealed
    · simp [hr]
    · cases hl : s.players.lookup name <;> simp [hr, hl]
  · intro s name sess
    by_cases h0 : name = ""
    · simp [nameInputEnter, h0]
    · by_cases hp : (s.players.lookup name).isSome <;>
        simp [nameInputEnter, initPlayerView, h0, hp]
  · intro s c
    unfold sessionCloseCleanup
    by_cases h : s.masterConn = some c <;> simp [h]

/-- Claim C4 amended witness: clearing a concrete revealed state drops the
reveal flag, and a step that turns the flag on from a concrete unrevealed
state is the reveal command (here) or a timer expiry. -/
theorem reveal_false_after_clear_transitions_witness :
    (masterUpdate ⟨[("alice", ⟨"5", true, 1⟩)], true, some 0⟩ .clear).1.revealed = false
    ∧ (MasterMsg.reveal = .reveal ∨ MasterMsg.reveal = .timerExpired) :=
  ⟨reveal_false_after_clear_transitions.1 ⟨[("alice", ⟨"5", true, 1⟩)], true, some 0⟩,
   reveal_false_after_clear_transitions.2.2.2.2.1 ⟨[], false, some 0⟩ .reveal rfl rfl⟩

/-- Claim C7 evaluated on the code: `validatePlayerName` rejects the
reserved name "master" and the too-short name "x", yet the name-entry flow
(`nameInputView.Update`, which never calls the validator) accepts both into
the registry. -/
theorem validator_not_called_by_name_entry :
    validatePlayerName "master" = some .reservedName
    ∧ validatePlayerName "x" = some .tooShort
    ∧ (nameInputEnter ⟨[], false, some 0⟩ "master" 1).2 = .ok
    ∧ (nameInputEnter ⟨[], false, some 0⟩ "master" 1).1.players.lookup "master"
        = some ⟨"", false, 1⟩
    ∧ (nameInputEnter ⟨[], false, some 0⟩ "x" 2).2 = .ok := by
  decide

/-- The incremental distribution map of `calculateStatistics` counts each
token's occurrences. -/
theorem distFold (l : List String) (d : String → Nat) (t : String) :
    (l.foldl (fun d p => Function.update d p (d p + 1)) d) t = d t + l.count t := by
  induction l generalizing d with
  | nil => simp
  | cons a tl ih =>
      rw [List.foldl_cons, ih]
      by_cases h : t = a
      · subst h
        simp [Function.update_apply, List.count_cons]
        omega
      · simp [Function.update_apply, h, List.count_cons]

/-- Sorting preserves the number of numeric votes. -/
theorem length_insertionSort_rat (l : List ℚ) :
    (l.insertionSort (· ≤ ·)).length = l.length :=
  (List.perm_insertionSort _ l).length_eq

/-- Claim C6: the statistics function returns the arithmetic mean of the
tokens that parse as decimal numbers (0 if none), the middle of the sorted
numeric values (odd count) or the one-decimal-formatted mean of the two
middle values (even count) with "N/A" when no token is numeric, and the
exact per-token multiset count; on ["1","2","?","5","?"] this is average
8/3, median "2.0" and distribution 1/1/2/1, and on ["2","3","5","8"] the
median is "4.0". -/
theorem statistics_matches_spec :
    (∀ points : List String,
        calculateStatistics points
          = (specAverage points, specMedian points, specDistribution points))
    ∧ (calculateStatistics ["1", "2", "?", "5", "?"]).1 = 8 / 3
    ∧ (calculateStatistics ["1", "2", "?", "5", "?"]).2.1 = "2.0"
    ∧ (calculateStatistics ["1", "2", "?", "5", "?"]).2.2 "1" = 1
    ∧ (calculateStatistics ["1", "2", "?", "5", "?"]).2.2 "2" = 1
    ∧ (calculateStatistics ["1", "2", "?", "5", "?"]).2.2 "?" = 2
    ∧ (calculateStatistics ["1", "2", "?", "5", "?"]).2.2 "5" = 1
    ∧ (calculateStatistics ["1", "2", "?", "5", "?"]).2.2 "13" = 0
    ∧ (calculateStatistics ["2", "3", "5", "8"]).2.1 = "4.0" := by
  have h125 : ["1", "2", "?", "5", "?"].filterMap parseVote = [1, 2, 5] := by decide
  have hs125 : ([1, 2, 5] : List ℚ).insertionSort (· ≤ ·) = [1, 2, 5] := by decide
  have h2358 : ["2", "3", "5", "8"].filterMap parseVote = [2, 3, 5, 8] := by decide
  have hs2358 : ([2, 3, 5, 8] : List ℚ).insertionSort (· ≤ ·) = [2, 3, 5, 8] := by decide
  refine ⟨?_, ?_, ?_, by decide, by decide, by decide, by decide, by decide, ?_⟩
  · intro points
    simp only [calculateStatistics, specAverage, specMedian, specDistribution]
    have hlen := length_insertionSort_rat (points.filterMap parseVote)
    rw [Prod.mk.injEq, Prod.mk.injEq]
    refine ⟨?_, ?_, ?_⟩
    · by_cases hE : points.filterMap parseVote = []
      · simp [hE]
      · rw [if_pos (List.length_pos.mpr hE), if_neg hE]
    · by_cases hE : points.filterMap parseVote = []
      · simp [hE, List.insertionSort]
      · have hS : (points.filterMap parseVote).insertionSort (· ≤ ·) ≠ [] := by
          intro hnil
          rw [hnil] at hlen
          exact hE (List.length_eq_zero.mp hlen.symm)
        rw [if_pos (List.length_pos.mpr hE), if_neg hS, hlen]
        by_cases hp : (points.filterMap parseVote).length % 2 = 0
        · rw [if_pos hp, if_neg (by omega)]
        · rw [if_neg hp, if_pos (by omega)]
    · funext t
      rw [distFold]
      simp [specDistribution]
  · simp only [calculateStatistics, h125]
    norm_num
  · simp only [calculateStatistics, h125, hs125]
    norm_num [fmt1, roundHalfEven]
    rfl
  · simp only [calculateStatistics, h2358, hs2358]
    norm_num [fmt1, roundHalfEven]
    rfl

/-- Claim C9: the statistics function is invariant under permutation of the
input vote list — same average, same median string, same distribution. -/
theorem statistics_permutation_invariant (l l' : List String) (h : l.Perm l') :
    calculateStatistics l = calculateStatistics l' := by
  have hfm : (l.filterMap parseVote).Perm (l'.filterMap parseVote) := h.filterMap _
  have hsum := hfm.sum_eq
  have hlen := hfm.length_eq
  have hsort : (l.filterMap parseVote).insertionSort (· ≤ ·)
      = (l'.filterMap parseVote).insertionSort (· ≤ ·) := by
    apply List.eq_of_perm_of_sorted (r := (· ≤ ·))
    · exact (List.perm_insertionSort _ _).trans (hfm.trans (List.perm_insertionSort _ _).symm)
    · exact List.sorted_insertionSort _ _
    · exact List.sorted_insertionSort _ _
  simp only [calculateStatistics]
  rw [Prod.mk.injEq, Prod.mk.injEq]
  refine ⟨?_, ?_, ?_⟩
  · rw [hsum, hlen]
  · rw [hlen, hsort]
  · funext t
    rw [distFold, distFold, h.count_eq]

/-- Claim C9 witness: a concrete permuted pair gets identical statistics. -/
theorem statistics_permutation_invariant_witness :
    calculateStatistics ["1", "?", "5", "2"] = calculateStatistics ["5", "2", "1", "?"] :=
  statistics_permutation_invariant ["1", "?", "5", "2"] ["5", "2", "1", "?"] (by decide)

end Showdown
